import Mathlib

/-!
Verification of the imsdly thumbnail pipeline.

Shallow embedding of:
  * `ThumbnailCache` (src/ui/widgets/sd_card/file_list.py): the in-memory
    pixmap cache, the in-flight set, the subscriber-callback map, the job
    queue, and the worker loop.  Each Python method call (`get_async`,
    one worker-loop item, `clear`) is modelled as an atomic step on an
    explicit state record; pixmaps and callbacks are type parameters.
  * the extension classifiers (`ThumbnailCache._get_file_type` and
    `FileSystemModel._get_file_type` in src/models/file_system.py),
    including the `os.path.splitext(...)[1].lower()` extension extraction.
  * the video frame-extraction strategies of
    src/utils/video_thumbnail_optimized.py and the standard generator of
    src/utils/video_thumbnail.py, over an abstract video source
    (OpenCV `VideoCapture` modelled as frame-index -> optional frame).
  * Qt size arithmetic (`QSize::scaled` with `KeepAspectRatio`, and the
    >=1x1 clamping performed by `QPixmap::scaled`) used by every scaling
    path.
-/

namespace Imsdly

/-! ## Decimal rendering of integers (embedding of Python `str(int)`
used by the f-string cache keys). -/

/-- Little-endian decimal digit characters of `n`; the first argument is
fuel (structural recursion so that the kernel can evaluate it). -/
def decAux : Nat → Nat → List Char
  | 0, _ => []
  | _ + 1, 0 => []
  | fuel + 1, n + 1 => Nat.digitChar ((n + 1) % 10) :: decAux fuel ((n + 1) / 10)

/-- Decimal digit characters of `n`, most significant first, as produced
by Python `str` on a nonnegative int. -/
def natChars (n : Nat) : List Char :=
  if n = 0 then ['0'] else (decAux n n).reverse

/-- Python `str` on a nonnegative int. -/
def natStr (n : Nat) : String := ⟨natChars n⟩

theorem decAux_eq_digits (fuel n : Nat) (h : n ≤ fuel) :
    decAux fuel n = (Nat.digits 10 n).map Nat.digitChar := by
  induction fuel generalizing n with
  | zero =>
    have hn : n = 0 := Nat.le_zero.mp h
    subst hn
    simp [decAux]
  | succ fuel ih =>
    cases n with
    | zero => simp [decAux]
    | succ m =>
      have hlt : (m + 1) / 10 < m + 1 := Nat.div_lt_self (Nat.succ_pos m) (by norm_num)
      simp only [decAux]
      rw [ih ((m + 1) / 10) (by omega),
        Nat.digits_def' (b := 10) (by norm_num) (Nat.succ_pos m)]
      simp

theorem natChars_eq (n : Nat) :
    natChars n = if n = 0 then ['0'] else ((Nat.digits 10 n).map Nat.digitChar).reverse := by
  unfold natChars
  rw [decAux_eq_digits n n le_rfl]

theorem digitChar_inj_lt : ∀ d < 10, ∀ e < 10, Nat.digitChar d = Nat.digitChar e → d = e := by
  decide

theorem digitChar_ne_x : ∀ d < 10, Nat.digitChar d ≠ 'x' := by
  decide

theorem mapDigitChar_inj {l1 l2 : List Nat} (h1 : ∀ x ∈ l1, x < 10) (h2 : ∀ x ∈ l2, x < 10)
    (h : l1.map Nat.digitChar = l2.map Nat.digitChar) : l1 = l2 := by
  induction l1 generalizing l2 with
  | nil => cases l2 <;> simp_all
  | cons a t ih =>
    cases l2 with
    | nil => simp_all
    | cons b t2 =>
      simp only [List.map_cons, List.cons.injEq] at h
      have ha : a = b := digitChar_inj_lt a (h1 a (by simp)) b (h2 b (by simp)) h.1
      have ht : t = t2 := ih (fun x hx => h1 x (by simp [hx])) (fun x hx => h2 x (by simp [hx])) h.2
      simp [ha, ht]

theorem natChars_ne_zero_chars {n : Nat} (hn : n ≠ 0) : natChars n ≠ ['0'] := by
  intro hcontra
  rw [natChars_eq] at hcontra
  simp only [hn, if_false] at hcontra
  have hmap : (Nat.digits 10 n).map Nat.digitChar = ['0'] := by
    have := congrArg List.reverse hcontra
    simpa using this
  have hd : Nat.digits 10 n = [0] :=
    mapDigitChar_inj (fun x hx => Nat.digits_lt_base (by norm_num) hx) (by decide)
      (by rw [hmap]; decide)
  have hod := Nat.ofDigits_digits 10 n
  rw [hd] at hod
  simp [Nat.ofDigits] at hod
  exact hn hod.symm

theorem natChars_inj {a b : Nat} (h : natChars a = natChars b) : a = b := by
  by_cases ha : a = 0 <;> by_cases hb : b = 0
  · omega
  · exact absurd (by rw [← h, natChars_eq]; simp [ha]) (natChars_ne_zero_chars hb)
  · exact absurd (by rw [h, natChars_eq]; simp [hb]) (natChars_ne_zero_chars ha)
  · rw [natChars_eq, natChars_eq] at h
    simp only [ha, hb, if_false] at h
    have hmap : (Nat.digits 10 a).map Nat.digitChar = (Nat.digits 10 b).map Nat.digitChar := by
      have := congrArg List.reverse h
      simpa using this
    have hd : Nat.digits 10 a = Nat.digits 10 b :=
      mapDigitChar_inj (fun x hx => Nat.digits_lt_base (by norm_num) hx)
        (fun x hx => Nat.digits_lt_base (by norm_num) hx) hmap
    have := congrArg (Nat.ofDigits 10) hd
    simpa [Nat.ofDigits_digits] using this

theorem x_not_mem_natChars (n : Nat) : 'x' ∉ natChars n := by
  rw [natChars_eq]
  by_cases hn : n = 0
  · simp [hn]
  · simp only [hn, if_false, List.mem_reverse]
    intro hmem
    obtain ⟨d, hd, hdc⟩ := List.mem_map.mp hmem
    exact digitChar_ne_x d (Nat.digits_lt_base (by norm_num) hd) hdc

theorem natStr_inj {a b : Nat} (h : natStr a = natStr b) : a = b := by
  apply natChars_inj
  have := congrArg String.data h
  simpa [natStr] using this

/-- Splitting a character list at a unique separator: if `c` occurs in
neither left part, the decomposition around `c` is unique. -/
theorem split_at_sep {l1 l2 r1 r2 : List Char} {c : Char}
    (hn1 : c ∉ l1) (hn2 : c ∉ l2) (h : l1 ++ c :: r1 = l2 ++ c :: r2) :
    l1 = l2 ∧ r1 = r2 := by
  induction l1 generalizing l2 with
  | nil =>
    cases l2 with
    | nil => simpa using h
    | cons b t2 =>
      simp only [List.nil_append, List.cons_append, List.cons.injEq] at h
      have hc : c ∈ b :: t2 := by
        rw [h.1]
        exact List.mem_cons_self b t2
      exact absurd hc hn2
  | cons a t ih =>
    cases l2 with
    | nil =>
      simp only [List.nil_append, List.cons_append, List.cons.injEq] at h
      have hc : c ∈ a :: t := by
        rw [← h.1]
        exact List.mem_cons_self a t
      exact absurd hc hn1
    | cons b t2 =>
      simp only [List.cons_append, List.cons.injEq] at h
      have := ih (fun hx => hn1 (List.mem_cons_of_mem a hx))
        (fun hx => hn2 (List.mem_cons_of_mem b hx)) h.2
      simp [h.1, this.1, this.2]

/-! ## ThumbnailCache (src/ui/widgets/sd_card/file_list.py, lines 121-260)

The cache state is `(cache, loading, callbacks, queue)`.  Pixmaps (`π`)
and callbacks (`κ`) are opaque type parameters; callback identity is what
lets us count invocations.  Each Python-level method call — `get_async`,
the processing of one dequeued item inside `_worker`, `clear` — is one
atomic step (the code takes no locks, but the claims describe the state
at method boundaries). -/

/-- Embedding of `key = f"{file_path}_{size.width()}x{size.height()}"`
(`ThumbnailCache.get` line 148, `get_async` line 155, `put` line 247). -/
def thumbKey (path : String) (w h : Nat) : String :=
  path ++ "_" ++ natStr w ++ "x" ++ natStr h

/-- An entry of `ThumbnailCache.queue`: the tuple
`(file_path, size, key)` put by `get_async` (line 176). -/
structure Job where
  path : String
  w : Nat
  h : Nat
  key : String
deriving DecidableEq, Repr

/-- The mutable state of a `ThumbnailCache` object:
`self.cache`, `self.loading`, `self.callbacks`, `self.queue`. -/
structure CacheState (π κ : Type) where
  cache : String → Option π
  loading : String → Bool
  callbacks : String → Option (List κ)
  queue : List Job

/-- The state right after `__init__` (empty dict / set / dict / queue). -/
def initState (π κ : Type) : CacheState π κ :=
  { cache := fun _ => none, loading := fun _ => false, callbacks := fun _ => none, queue := [] }

/-- Observable events: one execution of `_generate_thumbnail` for a key,
and one callback invocation `callback(file_path, pixmap)`. -/
inductive Ev (π κ : Type) where
  | decode (key : String)
  | invoke (cb : κ) (path : String) (px : π)
deriving DecidableEq, Repr

/-- Embedding of `ThumbnailCache.get` (lines 146-151): cache-only lookup. -/
def cacheGet (s : CacheState π κ) (path : String) (w h : Nat) : Option π :=
  s.cache (thumbKey path w h)

/-- Embedding of `ThumbnailCache.get_async` (lines 153-176). -/
def getAsync (s : CacheState π κ) (path : String) (w h : Nat) (cb : κ) :
    CacheState π κ × List (Ev π κ) :=
  let key := thumbKey path w h
  match s.cache key with
  | some px => (s, [Ev.invoke cb path px])
  | none =>
    if s.loading key then
      ({ s with callbacks := fun k =>
          if k = key then some ((s.callbacks key).getD [] ++ [cb]) else s.callbacks k }, [])
    else
      ({ cache := s.cache
         loading := fun k => if k = key then true else s.loading k
         callbacks := fun k =>
           if k = key then some ((s.callbacks key).getD [] ++ [cb]) else s.callbacks k
         queue := s.queue ++ [⟨path, w, h, key⟩] }, [])

/-- Processing of one dequeued item in `ThumbnailCache._worker`
(lines 198-241).  `ex` is `os.path.exists`; `gen` is
`_generate_thumbnail` (which returns `None` both on an unsupported
result and on an internal exception, lines 284-299); the per-item
`except` at lines 239-241 also just discards the key from `loading`,
so an exception inside `gen` is observably `gen = none`. -/
def processItem (ex : String → Bool) (gen : String → Nat → Nat → Option π)
    (s : CacheState π κ) (j : Job) : CacheState π κ × List (Ev π κ) :=
  if ex j.path = false then
    -- lines 201-204: missing file, discard from loading, no decode
    ({ s with loading := fun k => if k = j.key then false else s.loading k }, [])
  else
    match s.cache j.key with
    | some px =>
      -- lines 207-216: another worker already cached it; fan out and clean up
      match s.callbacks j.key with
      | some cbs =>
        ({ s with
            loading := fun k => if k = j.key then false else s.loading k
            callbacks := fun k => if k = j.key then none else s.callbacks k },
         cbs.map fun cb => Ev.invoke cb j.path px)
      | none =>
        ({ s with loading := fun k => if k = j.key then false else s.loading k }, [])
    | none =>
      -- lines 218-238: run the decode
      match gen j.path j.w j.h with
      | some px =>
        match s.callbacks j.key with
        | some cbs =>
          ({ cache := fun k => if k = j.key then some px else s.cache k
             loading := fun k => if k = j.key then false else s.loading k
             callbacks := fun k => if k = j.key then none else s.callbacks k
             queue := s.queue },
           Ev.decode j.key :: cbs.map fun cb => Ev.invoke cb j.path px)
        | none =>
          ({ cache := fun k => if k = j.key then some px else s.cache k
             loading := fun k => if k = j.key then false else s.loading k
             callbacks := s.callbacks
             queue := s.queue },
           [Ev.decode j.key])
      | none =>
        -- decode failed or raised: discard from loading, cache and callbacks untouched
        ({ s with loading := fun k => if k = j.key then false else s.loading k },
         [Ev.decode j.key])

/-- One worker step: dequeue the front job (if any) and process it.
(The Python worker dequeues in batches of up to five and then processes
each item independently; per-item processing is the unit modelled here.) -/
def workerStep (ex : String → Bool) (gen : String → Nat → Nat → Option π)
    (s : CacheState π κ) : CacheState π κ × List (Ev π κ) :=
  match s.queue with
  | [] => (s, [])
  | j :: rest => processItem ex gen { s with queue := rest } j

/-- Embedding of `ThumbnailCache.put` (lines 245-248).  No code in the repository ever
calls this method (the only `.put` calls are `queue.put` inside
`get_async`), so it does not appear in the reachable-state relation. -/
def cachePut (s : CacheState π κ) (path : String) (px : π) (w h : Nat) : CacheState π κ :=
  { s with cache := fun k => if k = thumbKey path w h then some px else s.cache k }

/-- Embedding of `ThumbnailCache.clear` (lines 250-260): empties the cache, the
loading set, the callback map and drains the queue. -/
def cacheClear (_s : CacheState π κ) : CacheState π κ := initState π κ

/-- States reachable from `__init__` by the operations the repository
actually performs on the cache: `get_async` (any arguments), a worker
processing one queued item (any filesystem/decoder behaviour), and
`clear`.  (`get` is read-only and `put` is never called.) -/
inductive Reachable (π κ : Type) : CacheState π κ → Prop where
  | init : Reachable π κ (initState π κ)
  | stepGetAsync {s : CacheState π κ} (path : String) (w h : Nat) (cb : κ) :
      Reachable π κ s → Reachable π κ (getAsync s path w h cb).1
  | stepWorker {s : CacheState π κ} (ex : String → Bool) (gen : String → Nat → Nat → Option π) :
      Reachable π κ s → Reachable π κ (workerStep ex gen s).1
  | stepClear {s : CacheState π κ} :
      Reachable π κ s → Reachable π κ (cacheClear s)

/-- The C2 invariant: a key with a cached pixmap is never simultaneously
in the loading set; the queue holds at most one job per key (pairwise
distinct keys); and every queued job's key is marked loading (so a
second generation job for a key cannot be enqueued while one is
pending — the at-most-one-generation-per-key guarantee). -/
def CacheInv (s : CacheState π κ) : Prop :=
  (∀ k px, s.cache k = some px → s.loading k = false) ∧
  (s.queue.Pairwise fun a b => a.key ≠ b.key) ∧
  (∀ j ∈ s.queue, s.loading j.key = true)

theorem cacheInv_init : CacheInv (initState π κ) := by
  refine ⟨?_, ?_, ?_⟩ <;> simp [initState]

theorem cacheInv_getAsync {s : CacheState π κ} (path : String) (w h : Nat) (cb : κ)
    (hinv : CacheInv s) : CacheInv (getAsync s path w h cb).1 := by
  obtain ⟨h1, h2, h3⟩ := hinv
  unfold getAsync
  rcases hc : s.cache (thumbKey path w h) with _ | px
  · by_cases hl : s.loading (thumbKey path w h)
    · simp only [hc, hl, if_true]
      exact ⟨h1, h2, h3⟩
    · simp only [hc, hl, Bool.false_eq_true, if_false]
      refine ⟨?_, ?_, ?_⟩
      · intro k px hk
        by_cases hkk : k = thumbKey path w h
        · rw [hkk] at hk
          simp [hc] at hk
        · simp only [hkk, if_false]
          exact h1 k px hk
      · rw [List.pairwise_append]
        refine ⟨h2, by simp, ?_⟩
        intro a ha b hb
        simp only [List.mem_singleton] at hb
        subst hb
        intro hkey
        have hkey2 : a.key = thumbKey path w h := hkey
        exact hl (by rw [← hkey2]; exact h3 a ha)
      · intro j hj
        rcases List.mem_append.mp hj with hj | hj
        · have := h3 j hj
          by_cases hk : j.key = thumbKey path w h
          · simp [hk]
          · simpa [hk] using this
        · simp only [List.mem_singleton] at hj
          subst hj
          simp
  · simp only [hc]
    exact ⟨h1, h2, h3⟩

theorem cacheInv_processItem {s : CacheState π κ} {j : Job}
    (ex : String → Bool) (gen : String → Nat → Nat → Option π)
    (h1 : ∀ k px, s.cache k = some px → s.loading k = false)
    (h2 : s.queue.Pairwise fun a b => a.key ≠ b.key)
    (h3 : ∀ jj ∈ s.queue, s.loading jj.key = true)
    (hj : ∀ jj ∈ s.queue, jj.key ≠ j.key) :
    CacheInv (processItem ex gen s j).1 := by
  have hload : ∀ jj ∈ s.queue, (if jj.key = j.key then false else s.loading jj.key) = true := by
    intro jj hjj
    simp [hj jj hjj, h3 jj hjj]
  have hcachesame : ∀ k px, s.cache k = some px →
      (if k = j.key then false else s.loading k) = false := by
    intro k px hk
    by_cases hkk : k = j.key
    · simp [hkk]
    · simp [hkk, h1 k px hk]
  unfold processItem
  split
  · exact ⟨hcachesame, h2, hload⟩
  · rcases hc : s.cache j.key with _ | px
    · rcases hg : gen j.path j.w j.h with _ | px
      · simp only [hc, hg]
        exact ⟨hcachesame, h2, hload⟩
      · rcases hcb : s.callbacks j.key with _ | cbs
        · simp only [hc, hg, hcb]
          refine ⟨?_, h2, hload⟩
          intro k px2 hk
          by_cases hkk : k = j.key
          · simp [hkk]
          · simp only [hkk, if_false] at hk ⊢
            exact h1 k px2 hk
        · simp only [hc, hg, hcb]
          refine ⟨?_, h2, hload⟩
          intro k px2 hk
          by_cases hkk : k = j.key
          · simp [hkk]
          · simp only [hkk, if_false] at hk ⊢
            exact h1 k px2 hk
    · rcases hcb : s.callbacks j.key with _ | cbs
      · simp only [hc, hcb]
        exact ⟨hcachesame, h2, hload⟩
      · simp only [hc, hcb]
        exact ⟨hcachesame, h2, hload⟩

theorem cacheInv_workerStep {s : CacheState π κ}
    (ex : String → Bool) (gen : String → Nat → Nat → Option π)
    (hinv : CacheInv s) : CacheInv (workerStep ex gen s).1 := by
  obtain ⟨h1, h2, h3⟩ := hinv
  rcases hq : s.queue with _ | ⟨j, rest⟩
  · simp only [workerStep]
    rw [hq]
    exact ⟨h1, h2, h3⟩
  · simp only [workerStep]
    rw [hq]
    rw [hq] at h2 h3
    have hpw := List.pairwise_cons.mp h2
    exact cacheInv_processItem ex gen
      (s := { s with queue := rest })
      h1 hpw.2 (fun jj hjj => h3 jj (List.mem_cons_of_mem j hjj))
      (fun jj hjj => (hpw.1 jj hjj).symm)

theorem cacheInv_reachable {s : CacheState π κ} (h : Reachable π κ s) : CacheInv s := by
  induction h with
  | init => exact cacheInv_init
  | stepGetAsync path w h cb _ ih => exact cacheInv_getAsync path w h cb ih
  | stepWorker ex gen _ ih => exact cacheInv_workerStep ex gen ih
  | stepClear _ ih => exact cacheInv_init

/-! ### Episode lemmas: registering N subscribers, then completing or failing -/

/-- Running `N` successive `get_async` calls for the same `(path, size)` with
callbacks `cbs`, collecting emitted events. -/
def getAsyncRun (path : String) (w h : Nat) :
    CacheState π κ → List κ → CacheState π κ × List (Ev π κ)
  | s, [] => (s, [])
  | s, cb :: cbs =>
    let r1 := getAsync s path w h cb
    let r2 := getAsyncRun path w h r1.1 cbs
    (r2.1, r1.2 ++ r2.2)

theorem getAsyncRun_loading {path : String} {w h : Nat} :
    ∀ (cbs : List κ) (s : CacheState π κ) (l : List κ),
      s.loading (thumbKey path w h) = true →
      s.cache (thumbKey path w h) = none →
      s.callbacks (thumbKey path w h) = some l →
      (getAsyncRun path w h s cbs).1.cache = s.cache ∧
      (getAsyncRun path w h s cbs).1.loading = s.loading ∧
      (getAsyncRun path w h s cbs).1.queue = s.queue ∧
      (getAsyncRun path w h s cbs).1.callbacks (thumbKey path w h) = some (l ++ cbs) ∧
      (getAsyncRun path w h s cbs).2 = [] := by
  intro cbs
  induction cbs with
  | nil =>
    intro s l hl hc hcb
    simp [getAsyncRun, hcb]
  | cons cb cbs ih =>
    intro s l hl hc hcb
    have hstep : getAsync s path w h cb =
        ({ s with callbacks := fun k =>
            if k = thumbKey path w h
            then some ((s.callbacks (thumbKey path w h)).getD [] ++ [cb])
            else s.callbacks k }, []) := by
      unfold getAsync
      simp [hc, hl]
    set s1 : CacheState π κ :=
      { s with callbacks := fun k =>
          if k = thumbKey path w h
          then some ((s.callbacks (thumbKey path w h)).getD [] ++ [cb])
          else s.callbacks k } with hs1
    have h1l : s1.loading (thumbKey path w h) = true := hl
    have h1c : s1.cache (thumbKey path w h) = none := hc
    have h1cb : s1.callbacks (thumbKey path w h) = some (l ++ [cb]) := by
      simp [hs1, hcb]
    have hrec := ih s1 (l ++ [cb]) h1l h1c h1cb
    have hrun : getAsyncRun path w h s (cb :: cbs) =
        ((getAsyncRun path w h s1 cbs).1, [] ++ (getAsyncRun path w h s1 cbs).2) := by
      simp only [getAsyncRun]
      rw [hstep]
    rw [hrun]
    refine ⟨hrec.1, hrec.2.1, hrec.2.2.1, ?_, by simp [hrec.2.2.2.2]⟩
    rw [hrec.2.2.2.1]
    simp

theorem getAsyncRun_fresh {s : CacheState π κ} {path : String} {w h : Nat} {l0 : List κ}
    (cb : κ) (cbs : List κ)
    (hc : s.cache (thumbKey path w h) = none)
    (hl : s.loading (thumbKey path w h) = false)
    (hcb : (s.callbacks (thumbKey path w h)).getD [] = l0) :
    (getAsyncRun path w h s (cb :: cbs)).1.cache = s.cache ∧
    (getAsyncRun path w h s (cb :: cbs)).1.loading =
      (fun k => if k = thumbKey path w h then true else s.loading k) ∧
    (getAsyncRun path w h s (cb :: cbs)).1.queue =
      s.queue ++ [⟨path, w, h, thumbKey path w h⟩] ∧
    (getAsyncRun path w h s (cb :: cbs)).1.callbacks (thumbKey path w h) =
      some (l0 ++ cb :: cbs) ∧
    (getAsyncRun path w h s (cb :: cbs)).2 = [] := by
  have hstep : getAsync s path w h cb =
      ({ cache := s.cache
         loading := fun k => if k = thumbKey path w h then true else s.loading k
         callbacks := fun k =>
           if k = thumbKey path w h
           then some ((s.callbacks (thumbKey path w h)).getD [] ++ [cb])
           else s.callbacks k
         queue := s.queue ++ [⟨path, w, h, thumbKey path w h⟩] }, []) := by
    unfold getAsync
    simp [hc, hl]
  set s1 : CacheState π κ :=
    { cache := s.cache
      loading := fun k => if k = thumbKey path w h then true else s.loading k
      callbacks := fun k =>
        if k = thumbKey path w h
        then some ((s.callbacks (thumbKey path w h)).getD [] ++ [cb])
        else s.callbacks k
      queue := s.queue ++ [⟨path, w, h, thumbKey path w h⟩] } with hs1
  have h1l : s1.loading (thumbKey path w h) = true := by simp [hs1]
  have h1c : s1.cache (thumbKey path w h) = none := hc
  have h1cb : s1.callbacks (thumbKey path w h) = some (l0 ++ [cb]) := by simp [hs1, hcb]
  have hrec := getAsyncRun_loading cbs s1 (l0 ++ [cb]) h1l h1c h1cb
  have hrun : getAsyncRun path w h s (cb :: cbs) =
      ((getAsyncRun path w h s1 cbs).1, [] ++ (getAsyncRun path w h s1 cbs).2) := by
    simp only [getAsyncRun]
    rw [hstep]
  rw [hrun]
  refine ⟨hrec.1, ?_, ?_, ?_, by simp [hrec.2.2.2.2]⟩
  · rw [hrec.2.1]
  · rw [hrec.2.2.1]
  · rw [hrec.2.2.2.1]
    simp

/-- Worker completion of the single queued job for a key, with the file
present and the decode succeeding: the decode runs (once), every
registered subscriber is invoked exactly once with the same pixmap, the
pixmap is cached, and the key leaves the loading set. -/
theorem workerStep_success {s : CacheState π κ} {path key : String} {w h : Nat}
    {cbs : List κ} {px : π} {rest : List Job}
    (ex : String → Bool) (gen : String → Nat → Nat → Option π)
    (hq : s.queue = ⟨path, w, h, key⟩ :: rest)
    (hc : s.cache key = none)
    (hcb : s.callbacks key = some cbs)
    (hex : ex path = true)
    (hgen : gen path w h = some px) :
    (workerStep ex gen s).1.cache key = some px ∧
    (workerStep ex gen s).1.loading key = false ∧
    (workerStep ex gen s).1.callbacks key = none ∧
    (workerStep ex gen s).1.queue = rest ∧
    (workerStep ex gen s).2 =
      Ev.decode key :: cbs.map (fun cb => Ev.invoke cb path px) := by
  simp only [workerStep]
  rw [hq]
  unfold processItem
  simp [hex, hc, hgen, hcb]

/-- Worker failure because the file does not exist: the key is dropped
from the loading set, nothing is cached, no decode runs, no callback is
invoked, and the subscriber list survives. -/
theorem workerStep_noFile {s : CacheState π κ} {path key : String} {w h : Nat}
    {rest : List Job}
    (ex : String → Bool) (gen : String → Nat → Nat → Option π)
    (hq : s.queue = ⟨path, w, h, key⟩ :: rest)
    (hex : ex path = false) :
    (workerStep ex gen s).1.cache = s.cache ∧
    (workerStep ex gen s).1.loading key = false ∧
    (workerStep ex gen s).1.callbacks = s.callbacks ∧
    (workerStep ex gen s).1.queue = rest ∧
    (workerStep ex gen s).2 = [] := by
  simp only [workerStep]
  rw [hq]
  unfold processItem
  simp [hex]

/-- Worker failure because the generator returned `None` (or raised):
the decode ran, the key is dropped from the loading set, nothing is
cached, no callback is invoked, and the subscriber list survives. -/
theorem workerStep_genFail {s : CacheState π κ} {path key : String} {w h : Nat}
    {rest : List Job}
    (ex : String → Bool) (gen : String → Nat → Nat → Option π)
    (hq : s.queue = ⟨path, w, h, key⟩ :: rest)
    (hc : s.cache key = none)
    (hex : ex path = true)
    (hgen : gen path w h = none) :
    (workerStep ex gen s).1.cache = s.cache ∧
    (workerStep ex gen s).1.loading key = false ∧
    (workerStep ex gen s).1.callbacks = s.callbacks ∧
    (workerStep ex gen s).1.queue = rest ∧
    (workerStep ex gen s).2 = [Ev.decode key] := by
  simp only [workerStep]
  rw [hq]
  unfold processItem
  simp [hex, hc, hgen]

/-- Monotonicity: `get_async` never deletes a subscriber list: an existing entry is
either left alone or extended. -/
theorem getAsync_callbacks_mono (s : CacheState π κ) (path : String) (w h : Nat) (cb : κ)
    (k : String) (l : List κ) (hcb : s.callbacks k = some l) :
    ∃ t, (getAsync s path w h cb).1.callbacks k = some (l ++ t) := by
  unfold getAsync
  rcases hc : s.cache (thumbKey path w h) with _ | px
  · by_cases hl : s.loading (thumbKey path w h)
    · simp only [hc, hl, if_true]
      by_cases hk : k = thumbKey path w h
      · refine ⟨[cb], ?_⟩
        subst hk
        simp [hcb]
      · exact ⟨[], by simp [hk, hcb]⟩
    · simp only [hc, hl, Bool.false_eq_true, if_false]
      by_cases hk : k = thumbKey path w h
      · refine ⟨[cb], ?_⟩
        subst hk
        simp [hcb]
      · exact ⟨[], by simp [hk, hcb]⟩
  · simp only [hc]
    exact ⟨[], by simp [hcb]⟩

theorem workerStep_eq_processItem {s : CacheState π κ} {j : Job} {rest : List Job}
    (ex : String → Bool) (gen : String → Nat → Nat → Option π)
    (hq : s.queue = j :: rest) :
    workerStep ex gen s = processItem ex gen { s with queue := rest } j := by
  simp only [workerStep]
  rw [hq]

/-- Processing one item deletes a subscriber list only for the key of
the processed job, and only when the file existed and either the key was
already cached (the cache-hit re-check) or the decode succeeded. -/
theorem processItem_callbacks_delete (s : CacheState π κ) (j : Job)
    (ex : String → Bool) (gen : String → Nat → Nat → Option π)
    (k : String) (l : List κ)
    (hcb : s.callbacks k = some l)
    (hdel : (processItem ex gen s j).1.callbacks k = none) :
    j.key = k ∧ ex j.path = true ∧
      (s.cache k ≠ none ∨ gen j.path j.w j.h ≠ none) := by
  unfold processItem at hdel
  by_cases hex : ex j.path = false
  · simp [hex, hcb] at hdel
  · have hext : ex j.path = true := by
      revert hex
      cases ex j.path <;> simp
    by_cases hk : j.key = k
    · subst hk
      refine ⟨rfl, hext, ?_⟩
      rcases hc : s.cache j.key with _ | px
      · rcases hg : gen j.path j.w j.h with _ | px
        · simp [hex, hc, hg, hcb] at hdel
        · exact Or.inr (by simp [hg])
      · exact Or.inl (by simp [hc])
    · exfalso
      have hk2 : ¬(k = j.key) := fun hcon => hk hcon.symm
      rcases hc : s.cache j.key with _ | px
      · rcases hg : gen j.path j.w j.h with _ | px
        · simp [hex, hc, hg, hcb] at hdel
        · rcases hcb2 : s.callbacks j.key with _ | cbs <;>
            simp [hex, hc, hg, hcb2, hk2, hcb] at hdel
      · rcases hcb2 : s.callbacks j.key with _ | cbs <;>
          simp [hex, hc, hcb2, hk2, hcb] at hdel

/-- Lifting of `processItem_callbacks_delete` to a worker step (an empty
queue deletes nothing). -/
theorem workerStep_callbacks_delete (s : CacheState π κ)
    (ex : String → Bool) (gen : String → Nat → Nat → Option π)
    (k : String) (l : List κ)
    (hcb : s.callbacks k = some l)
    (hdel : (workerStep ex gen s).1.callbacks k = none) :
    ∃ j rest, s.queue = j :: rest ∧ j.key = k ∧ ex j.path = true ∧
      (s.cache k ≠ none ∨ gen j.path j.w j.h ≠ none) := by
  rcases hq : s.queue with _ | ⟨j, rest⟩
  · exfalso
    simp only [workerStep] at hdel
    rw [hq] at hdel
    simp [hcb] at hdel
  · rw [workerStep_eq_processItem ex gen hq] at hdel
    exact ⟨j, rest, rfl,
      processItem_callbacks_delete { s with queue := rest } j ex gen k l hcb hdel⟩

/-! ## Extension classifiers
(`ThumbnailCache._get_file_type`, file_list.py lines 262-282, and
`FileSystemModel._get_file_type`, src/models/file_system.py lines
83-116; both do `os.path.splitext(file_path)[1].lower()` and then
membership tests against static extension lists). -/

/-- ASCII case of Python `str.lower` on one character (the inputs in
question are ASCII file extensions). -/
def pyLower (c : Char) : Char :=
  if 65 ≤ c.toNat ∧ c.toNat ≤ 90 then Char.ofNat (c.toNat + 32) else c

/-- Embedding of `str.rfind`: index of the last occurrence of `c`, `-1` when absent. -/
def rfindChar : List Char → Char → Int
  | [], _ => -1
  | a :: rest, c =>
    let r := rfindChar rest c
    if r ≥ 0 then r + 1 else if a = c then 0 else -1

/-- Embedding of `os.path.splitext(p)[1]` (genericpath._splitext with the Windows
separators, sep `\` and altsep `/`): the suffix starting at the last
dot, provided that dot lies after the last path separator and at least
one character strictly between the separator and the dot is not itself a
dot (leading dots of a file name such as `.bashrc` are not extensions). -/
def splitextExt (p : List Char) : List Char :=
  let sepIdx := max (rfindChar p '/') (rfindChar p '\\')
  let dotIdx := rfindChar p '.'
  if sepIdx < dotIdx ∧
      ((p.drop (sepIdx + 1).toNat).take (dotIdx - (sepIdx + 1)).toNat).any (· ≠ '.')
  then p.drop dotIdx.toNat else []

/-- Embedding of `os.path.splitext(file_path)[1].lower()` as computed by both
classifiers. -/
def extLower (path : String) : String :=
  ⟨(splitextExt path.data).map pyLower⟩

/-- Embedding of `ThumbnailCache._get_file_type` (file_list.py lines 262-282). -/
def tcGetFileType (path : String) : String :=
  let ext := extLower path
  if ext ∈ [".jpg", ".jpeg", ".png", ".gif", ".bmp", ".tiff", ".webp", ".svg"] then
    "image"
  else if ext ∈ [".raw", ".cr2", ".nef", ".arf", ".sr2", ".crw", ".dng", ".orf",
      ".pef", ".arw"] then
    "raw"
  else if ext ∈ [".mp4", ".mov", ".avi", ".mkv", ".mpg", ".mpeg", ".3gp", ".wmv",
      ".flv", ".webm"] then
    "video"
  else if ext ∈ [".pdf", ".doc", ".docx", ".xls", ".xlsx", ".ppt", ".pptx", ".txt",
      ".rtf"] then
    "document"
  else "other"

/-- Embedding of `FileSystemModel._get_file_type` (src/models/file_system.py lines
83-116); it only distinguishes image / video / other. -/
def fsGetFileType (path : String) : String :=
  let ext := extLower path
  if ext ∈ [".jpg", ".jpeg", ".png", ".gif", ".bmp", ".tiff", ".raw", ".cr2", ".nef",
      ".webp", ".heic", ".heif", ".arw", ".dng", ".orf", ".sr2", ".pef", ".raf",
      ".x3f", ".rw2", ".psd", ".ai", ".eps", ".svg", ".ico", ".jfif", ".jpe",
      ".tif", ".bmp", ".ppm", ".pgm", ".pbm", ".pnm", ".hdr", ".exr"] then
    "image"
  else if ext ∈ [".mp4", ".mov", ".avi", ".mkv", ".mpg", ".mpeg", ".3gp",
      ".wmv", ".flv", ".webm", ".m4v", ".vob", ".ogv", ".mts", ".m2ts",
      ".ts", ".mxf", ".rm", ".rmvb", ".asf", ".divx", ".xvid", ".h264",
      ".h265", ".hevc", ".vp8", ".vp9", ".av1", ".m2v", ".m4p", ".m4b",
      ".f4v", ".f4p", ".f4a", ".f4b"] then
    "video"
  else "other"

/-! ## Qt scaling arithmetic -/

/-- A decoded video frame / loaded image with its pixel dimensions and
an abstract content tag. -/
structure VFrame where
  w : Nat
  h : Nat
  id : Nat
deriving DecidableEq, Repr

/-- Embedding of `QSize::scaled` with `Qt::KeepAspectRatio` (Qt source: if either
source dimension is 0 the target is returned; otherwise
`rw = s.height() * width / height` in integer arithmetic, and the side
that fits is kept). -/
def qsizeScaledKeepAR (wd ht tw th : Nat) : Nat × Nat :=
  if wd = 0 ∨ ht = 0 then (tw, th)
  else
    let rw := th * wd / ht
    if rw ≤ tw then (rw, th) else (tw, tw * ht / wd)

/-- Result dimensions of `QPixmap::scaled(size, KeepAspectRatio)` on a
non-null pixmap: `QSize::scaled`, then clamped to at least 1x1
(QImage::scaled clamps `newSize` with `qMax(..., 1)`). -/
def qpixScaledDims (wd ht tw th : Nat) : Nat × Nat :=
  let p := qsizeScaledKeepAR wd ht tw th
  (max p.1 1, max p.2 1)

/-- Result dimensions of `ThumbnailWorker._scale_and_center_pixmap`
(file_list.py lines 692-714): aspect-fit scale, then, exactly when the
scaled pixmap is smaller than the target in either direction, centering
on a fresh `thumb_width` x `thumb_height` canvas. -/
def scaleAndCenterDims (wd ht tw th : Nat) : Nat × Nat :=
  let p := qpixScaledDims wd ht tw th
  if p.1 < tw ∨ p.2 < th then (tw, th) else p

/-- Result dimensions of `ThumbnailCache._generate_image_thumbnail`
(file_list.py lines 301-310) on a successfully loaded image: a bare
aspect-fit `QPixmap.scaled(size, KeepAspectRatio)` — no letterbox
canvas on this path. -/
def tcImageThumbDims (wd ht tw th : Nat) : Nat × Nat :=
  qpixScaledDims wd ht tw th

/-! ## Video thumbnail modules
(src/utils/video_thumbnail_optimized.py and src/utils/video_thumbnail.py) -/

/-- Abstract pixmaps produced by the video pipeline, tracking the
construction and the pixel dimensions. -/
inductive Pix where
  /-- Embedding of `_frame_to_pixmap` result: a frame aspect-fit-scaled towards a
  target size; `w`/`h` are the resulting dimensions. -/
  | framePix (w h : Nat) (src : VFrame)
  /-- Embedding of `create_fallback_thumbnail` (video_thumbnail.py lines 222-308):
  film-strip-bordered box with "VIDEO" text and the file-extension
  badge, at exactly the requested size. -/
  | fallback (path : String) (w h : Nat)
  /-- an image centered on a `w` x `h` canvas (letterboxing). -/
  | letterbox (w h : Nat) (inner : Pix)
  /-- Embedding of `add_filmstrip_overlay` (dimension-preserving copy). -/
  | withFilmstrip (inner : Pix)
  /-- Embedding of `add_duration_indicator` (dimension-preserving copy). -/
  | withDuration (inner : Pix) (duration : Rat)
  /-- an unscaled decoded frame (used for the standard module's
  `cv2.resize` content, whose inner float arithmetic stays abstract;
  only the outer letterbox canvas fixes the final dimensions). -/
  | raw (src : VFrame)
  /-- Embedding of `ThumbnailCache._generate_generic_thumbnail` (file_list.py lines
  410-470): generic icon box at exactly the requested size. -/
  | genericIcon (path : String) (w h : Nat)
deriving DecidableEq, Repr

/-- Pixel dimensions of an abstract pixmap. -/
def Pix.dims : Pix → Nat × Nat
  | framePix w h _ => (w, h)
  | fallback _ w h => (w, h)
  | letterbox w h _ => (w, h)
  | withFilmstrip p => p.dims
  | withDuration p _ => p.dims
  | raw f => (f.w, f.h)
  | genericIcon _ w h => (w, h)

/-- Embedding of `_frame_to_pixmap` (video_thumbnail_optimized.py lines 504-522):
BGR-to-RGB conversion, then `QPixmap.scaled(size, KeepAspectRatio)`. -/
def frameToPixmap (f : VFrame) (tw th : Nat) : Pix :=
  Pix.framePix (qpixScaledDims f.w f.h tw th).1 (qpixScaledDims f.w f.h tw th).2 f

/-- A `cv2.VideoCapture` source: whether the open succeeded, the
reported fps and frame-count metadata (the float fps as `Rat`, the
already-`int()`-converted frame count as `Int`), and the frame available
at each position (`read()` at position `i` returns `frames i` and
advances; `none` is a failed/empty read). -/
structure VideoSrc where
  opened : Bool
  fps : Rat
  frameCount : Int
  frames : Int → Option VFrame

/-- Python `int()` on a float value, truncation toward zero (Lean `Int`
division is T-division, so `num / den` truncates toward zero). -/
def pyInt (q : Rat) : Int := q.num / q.den

/-- Embedding of `_standard_method` (video_thumbnail_optimized.py lines 162-194). -/
def standardMethod (v : VideoSrc) (tw th : Nat) (frameTime : Rat) : Option Pix :=
  if !v.opened then none
  else if v.fps ≤ 0 ∨ v.frameCount ≤ 0 then none
  else
    let fn : Int := max 0 (min (pyInt (frameTime * v.fps)) (v.frameCount - 1))
    match v.frames fn with
    | none => none
    | some f => some (frameToPixmap f tw th)

/-- Embedding of `_direct_seek_method` (lines 196-216).  `msecPos` abstracts the
backend's mapping from a `CAP_PROP_POS_MSEC` seek target to the frame
position the following `read()` returns.  Note: no fps/frame-count
validation happens on this path. -/
def directSeekMethod (msecPos : Rat → Int) (v : VideoSrc) (tw th : Nat)
    (frameTime : Rat) : Option Pix :=
  if !v.opened then none
  else
    match v.frames (msecPos (frameTime * 1000)) with
    | none => none
    | some f => some (frameToPixmap f tw th)

/-- Embedding of `_keyframe_only_method` (lines 218-251): fps/frame-count check, then
an msec seek and a single read (`CAP_PROP_HW_ACCELERATION` does not
change which frame is produced in this model). -/
def keyframeOnlyMethod (msecPos : Rat → Int) (v : VideoSrc) (tw th : Nat)
    (frameTime : Rat) : Option Pix :=
  if !v.opened then none
  else if v.fps ≤ 0 ∨ v.frameCount ≤ 0 then none
  else
    match v.frames (msecPos (frameTime * 1000)) with
    | none => none
    | some f => some (frameToPixmap f tw th)

/-- Embedding of `_stream_optimized_method` (lines 253-285): observably the same
shape (`CAP_PROP_BUFFERSIZE` does not change which frame is produced). -/
def streamOptimizedMethod (msecPos : Rat → Int) (v : VideoSrc) (tw th : Nat)
    (frameTime : Rat) : Option Pix :=
  if !v.opened then none
  else if v.fps ≤ 0 ∨ v.frameCount ≤ 0 then none
  else
    match v.frames (msecPos (frameTime * 1000)) with
    | none => none
    | some f => some (frameToPixmap f tw th)

/-- Embedding of `_skip_frames_method` (lines 287-331): the grab loop only advances
the position; the final `set(CAP_PROP_POS_FRAMES, target)` and `read()`
determine the result.  Note the target is
`min(int(frame_time * fps), total_frames - 1)` with no lower clamp. -/
def skipFramesMethod (v : VideoSrc) (tw th : Nat) (frameTime : Rat) : Option Pix :=
  if !v.opened then none
  else if v.fps ≤ 0 ∨ v.frameCount ≤ 0 then none
  else
    let target : Int := min (pyInt (frameTime * v.fps)) (v.frameCount - 1)
    match v.frames target with
    | none => none
    | some f => some (frameToPixmap f tw th)

/-- The backend-trying loop of `_hardware_accel_method` (lines 344-363). -/
def hwTryBackends (msecPos : Rat → Int) (tw th : Nat) (frameTime : Rat) :
    List VideoSrc → Option Pix
  | [] => none
  | b :: rest =>
    if b.opened then
      match b.frames (msecPos (frameTime * 1000)) with
      | some f => some (frameToPixmap f tw th)
      | none => hwTryBackends msecPos tw th frameTime rest
    else hwTryBackends msecPos tw th frameTime rest

/-- Embedding of `_hardware_accel_method` (lines 333-366): tries the four capture
backends (DirectShow, MSMF, FFMPEG, GStreamer — the `backends` list),
then falls back to `_standard_method` on the default capture `v`. -/
def hardwareAccelMethod (backends : List VideoSrc) (msecPos : Rat → Int)
    (v : VideoSrc) (tw th : Nat) (frameTime : Rat) : Option Pix :=
  match hwTryBackends msecPos tw th frameTime backends with
  | some p => some p
  | none => standardMethod v tw th frameTime

/-- Embedding of `_fast_first_frame_method` (lines 368-404): open, one read. -/
def fastFirstFrameMethod (v : VideoSrc) (tw th : Nat) : Option Pix :=
  if !v.opened then none
  else
    match v.frames 0 with
    | none => none
    | some f => some (frameToPixmap f tw th)

/-- Python `str(int)`, negatives included. -/
def intStr (n : Int) : String :=
  if n < 0 then "-" ++ natStr n.natAbs else natStr n.toNat

/-- Memo key of `_fast_frame_grab_method` (line 422):
`f"{file_path}_{frame_number}_{size.width()}x{size.height()}"` —
computed from the requested frame number before clamping. -/
def ffgKey (path : String) (n : Int) (tw th : Nat) : String :=
  path ++ "_" ++ intStr n ++ "_" ++ natStr tw ++ "x" ++ natStr th

/-- Lookup in the function-attribute memo dict. -/
def memoLookup (c : List (String × Pix)) (k : String) : Option Pix :=
  (c.find? fun e => e.1 = k).map Prod.snd

/-- Dict insert followed by `if len > 100: pop oldest` (Python dicts
iterate in insertion order, so `next(iter(...))` names the oldest
entry). -/
def memoInsert (c : List (String × Pix)) (k : String) (px : Pix) : List (String × Pix) :=
  let c2 := c ++ [(k, px)]
  if c2.length > 100 then c2.tail else c2

/-- Result of the sequential-read loop of `_fast_frame_grab_method` for
a clamped frame number `n ≥ 1` (lines 445-451): the loop performs `n`
reads starting at position 0, so on success the Python local `frame`
holds the frame at position `n - 1`; if any read fails there is no
usable frame. -/
def seqLastFrame (v : VideoSrc) (n : Nat) : Option VFrame :=
  if (List.range n).all (fun i => (v.frames i).isSome) then v.frames ((n : Int) - 1)
  else none

/-- Embedding of `_fast_frame_grab_method` (lines 406-502).  Returns the result and
the updated memo cache.  For a clamped frame number of `0` the
sequential branch performs no read, leaving the Python local `frame`
unbound; the following `if success and frame is not None` raises
`NameError`, which the enclosing `except` converts to a `None` return —
modelled by the explicit `none` in that branch. -/
def fastFrameGrabMethod (cache : List (String × Pix)) (v : VideoSrc) (path : String)
    (tw th : Nat) (frameNumber : Int) : Option Pix × List (String × Pix) :=
  let key := ffgKey path frameNumber tw th
  match memoLookup cache key with
  | some px => (some px, cache)
  | none =>
    if !v.opened then (none, cache)
    else if v.frameCount ≤ 0 then (none, cache)
    else
      let n : Int := min (max 0 frameNumber) (v.frameCount - 1)
      if n ≤ 10 then
        if n = 0 then (none, cache)
        else
          match seqLastFrame v n.toNat with
          | some f => (some (frameToPixmap f tw th), memoInsert cache key (frameToPixmap f tw th))
          | none => (none, cache)
      else
        match v.frames n with
        | some f => (some (frameToPixmap f tw th), memoInsert cache key (frameToPixmap f tw th))
        | none => (none, cache)

/-- Embedding of `_get_video_duration` (video_thumbnail_optimized.py lines 524-548):
0 on any failure. -/
def getVideoDurationOpt (v : VideoSrc) : Rat :=
  if !v.opened then 0
  else if v.fps ≤ 0 ∨ v.frameCount ≤ 0 then 0
  else (v.frameCount : Rat) / v.fps

/-- Embedding of `get_video_duration` (video_thumbnail.py lines 310-340): `None` on
any failure. -/
def getVideoDurationStd (v : VideoSrc) : Option Rat :=
  if !v.opened then none
  else if v.fps ≤ 0 ∨ v.frameCount ≤ 0 then none
  else some ((v.frameCount : Rat) / v.fps)

/-- Embedding of `generate_optimized_thumbnail` (video_thumbnail_optimized.py lines
97-160): method dispatch plus overlay composition.  When OpenCV is
unavailable the fallback placeholder is returned; when the chosen
strategy returns `None`, `None` propagates to the caller — no
placeholder is substituted on this path. -/
def generateOptimizedThumbnail (opencv : Bool) (backends : List VideoSrc)
    (msecPos : Rat → Int) (cache : List (String × Pix)) (v : VideoSrc)
    (path : String) (tw th : Nat) (frameTime : Rat) (method : String)
    (frameNumber : Int) : Option Pix × List (String × Pix) :=
  if !opencv then (some (Pix.fallback path tw th), cache)
  else
    let r : Option Pix × List (String × Pix) :=
      if method = "direct_seek" then (directSeekMethod msecPos v tw th frameTime, cache)
      else if method = "keyframe_only" then
        (keyframeOnlyMethod msecPos v tw th frameTime, cache)
      else if method = "stream_optimized" then
        (streamOptimizedMethod msecPos v tw th frameTime, cache)
      else if method = "skip_frames" then (skipFramesMethod v tw th frameTime, cache)
      else if method = "hardware_accel" then
        (hardwareAccelMethod backends msecPos v tw th frameTime, cache)
      else if method = "fast_first_frame" then (fastFirstFrameMethod v tw th, cache)
      else if method = "fast_frame_grab" then
        fastFrameGrabMethod cache v path tw th frameNumber
      else (standardMethod v tw th frameTime, cache)
    match r.1 with
    | none => (none, r.2)
    | some px =>
      let d := getVideoDurationOpt v
      if 0 < d then (some (Pix.withDuration (Pix.withFilmstrip px) d), r.2)
      else (some (Pix.withFilmstrip px), r.2)

/-- The standard module's memo cache; the Python key is the f-string of
`(file_path, w, h, frame_time)` — rendering the float into a string is
not shallow-embeddable, so the cache is keyed by the tuple itself. -/
abbrev StdCache := List ((String × Nat × Nat × Rat) × Pix)

/-- Lookup in the standard module's memo dict. -/
def stdMemoLookup (c : StdCache) (k : String × Nat × Nat × Rat) : Option Pix :=
  (c.find? fun e => e.1 = k).map Prod.snd

/-- Dict insert followed by the 50-entry eviction of the oldest item. -/
def stdMemoInsert (c : StdCache) (k : String × Nat × Nat × Rat) (px : Pix) : StdCache :=
  let c2 := c ++ [(k, px)]
  if c2.length > 50 then c2.tail else c2

/-- Embedding of `generate_video_thumbnail` (video_thumbnail.py lines 23-151): the
standard generator.  All failure paths substitute
`create_fallback_thumbnail` (the film-strip "VIDEO" placeholder); the
success path letterboxes the resized frame onto a `target_w` x
`target_h` canvas, overlays the film strip and possibly a duration
badge, and memoizes the result. -/
def generateVideoThumbnail (opencv : Bool) (cache : StdCache) (v : VideoSrc)
    (path : String) (tw th : Nat) (frameTime : Rat) : Pix × StdCache :=
  if !opencv then (Pix.fallback path tw th, cache)
  else
    match stdMemoLookup cache (path, tw, th, frameTime) with
    | some px => (px, cache)
    | none =>
      if !v.opened then (Pix.fallback path tw th, cache)
      else if v.fps ≤ 0 ∨ v.frameCount ≤ 0 then (Pix.fallback path tw th, cache)
      else
        let fn : Int := max 0 (min (pyInt (frameTime * v.fps)) (v.frameCount - 1))
        match v.frames fn with
        | none => (Pix.fallback path tw th, cache)
        | some f =>
          let withStrip := Pix.withFilmstrip (Pix.letterbox tw th (Pix.raw f))
          let res :=
            match getVideoDurationStd v with
            | some d => if 0 < d then Pix.withDuration withStrip d else withStrip
            | none => withStrip
          (res, stdMemoInsert cache (path, tw, th, frameTime) res)

/-- Embedding of `ThumbnailCache._generate_video_thumbnail` (file_list.py lines
345-403) under the shipped `VIDEO_THUMBNAIL_CONFIG` (`use_optimized =
True`, `preferred_method = "fast_frame_grab"`, `frame_number = 5`,
`fallback_to_standard = True`): try the optimized module (which gets
`frame_number = 5` and the default `frame_time = 1.0`); if it yields
nothing, fall back to the standard module with `frame_time = 5 / 30`;
the standard module always yields a pixmap when OpenCV is importable,
so the generic icon is reached only when the video modules are
unavailable. -/
def tcGenerateVideoThumbnail (videoAvail optAvail : Bool) (backends : List VideoSrc)
    (msecPos : Rat → Int) (ocache : List (String × Pix)) (scache : StdCache)
    (v : VideoSrc) (path : String) (tw th : Nat) : Pix :=
  if videoAvail then
    let opt : Option Pix :=
      if optAvail then
        (generateOptimizedThumbnail true backends msecPos ocache v path tw th 1
          "fast_frame_grab" 5).1
      else none
    match opt with
    | some px => px
    | none => (generateVideoThumbnail true scache v path tw th (5 / 30)).1
  else Pix.genericIcon path tw th

/-- Result dimensions of `ThumbnailCache._generate_image_thumbnail`
(file_list.py lines 301-310): `QPixmap(file_path)` (via the loader
oracle `load`; `none` models a null pixmap), then a bare aspect-fit
`scaled`; on load failure the generic icon at the requested size. -/
def tcGenerateImageThumbnail (load : String → Option VFrame) (path : String)
    (tw th : Nat) : Pix :=
  match load path with
  | none => Pix.genericIcon path tw th
  | some f =>
    Pix.framePix (qpixScaledDims f.w f.h tw th).1 (qpixScaledDims f.w f.h tw th).2 f

/-- Embedding of `FileIconItem._get_cache_key` (file_list.py lines 1242-1251): the md5
hex digest (oracle `digest`) of `f"{file_path}_{mod_time}"`, where
`mtimeRepr` stands for Python's rendering of the file's modification
time.  `_request_thumbnail` (line 1119) computes this value but never
passes it to the `ThumbnailCache`, whose keys ignore it. -/
def fileIconCacheKey (digest : String → String) (path : String) (mtimeRepr : String) :
    String :=
  digest (path ++ "_" ++ mtimeRepr)

/-! ## Claim theorems -/

theorem strAppendData (a b : String) : (a ++ b).data = a.data ++ b.data := by
  cases a
  cases b
  rfl

theorem thumbKey_data (path : String) (w h : Nat) :
    (thumbKey path w h).data = path.data ++ '_' :: (natChars w ++ 'x' :: natChars h) := by
  show (path ++ "_" ++ natStr w ++ "x" ++ natStr h).data = _
  simp only [strAppendData]
  show path.data ++ ['_'] ++ natChars w ++ ['x'] ++ natChars h = _
  simp [List.append_assoc]

/-- Claim C7 — for every fixed path, the key `f"{path}_{w}x{h}"` derived by
`ThumbnailCache.get`/`get_async`/`put` is injective in the target size:
two requests for the same path with distinct sizes never read or write
the same cache slot. -/
theorem c7_cache_key_injective_in_size (path : String) (w1 h1 w2 h2 : Nat)
    (hne : ¬(w1 = w2 ∧ h1 = h2)) :
    thumbKey path w1 h1 ≠ thumbKey path w2 h2 := by
  intro heq
  apply hne
  have hdata := congrArg String.data heq
  rw [thumbKey_data, thumbKey_data] at hdata
  have hc1 := List.append_cancel_left hdata
  have hc2 : natChars w1 ++ 'x' :: natChars h1 = natChars w2 ++ 'x' :: natChars h2 :=
    (List.cons.injEq _ _ _ _).mp hc1 |>.2
  have hc3 := split_at_sep (x_not_mem_natChars w1) (x_not_mem_natChars w2) hc2
  exact ⟨natChars_inj hc3.1, natChars_inj hc3.2⟩

/-- Claim C7 witness: the keys for 64x64 and 64x65 at the same path differ. -/
theorem c7_cache_key_injective_in_size_witness :
    ¬(64 = 64 ∧ 64 = 65) ∧ thumbKey "DCIM/a.jpg" 64 64 ≠ thumbKey "DCIM/a.jpg" 64 65 :=
  ⟨by decide, c7_cache_key_injective_in_size "DCIM/a.jpg" 64 64 64 65 (by decide)⟩

/-- Claim C4 counterexample — the claim covers both cited classifiers, but
`FileSystemModel._get_file_type` maps `.cr2` to `image`, not `raw` (it
has no `raw` category at all), and `.pdf` to `other`, not `document`. -/
theorem c4_counterexample :
    fsGetFileType "IMG_0001.CR2" = "image" ∧ fsGetFileType "doc/report.pdf" = "other" ∧
      ("image" : String) ≠ "raw" ∧ ("other" : String) ≠ "document" := by
  refine ⟨by decide, by decide, by decide, by decide⟩

/-- Claim C4 (amended) — `ThumbnailCache._get_file_type` classifies by
case-insensitive extension lookup exactly as claimed (`.jpg` to image,
`.cr2` to raw, `.mp4` to video, `.pdf` to document, unknown `.xyz` to
other); `FileSystemModel._get_file_type`, however, only distinguishes
image / video / other, sending `.jpg` and `.cr2` to image, `.mp4` to
video, and `.pdf` like `.xyz` to other. -/
theorem c4_classifier_dispatch (p : String) :
    (extLower p = ".jpg" → tcGetFileType p = "image" ∧ fsGetFileType p = "image") ∧
    (extLower p = ".cr2" → tcGetFileType p = "raw" ∧ fsGetFileType p = "image") ∧
    (extLower p = ".mp4" → tcGetFileType p = "video" ∧ fsGetFileType p = "video") ∧
    (extLower p = ".pdf" → tcGetFileType p = "document" ∧ fsGetFileType p = "other") ∧
    (extLower p = ".xyz" → tcGetFileType p = "other" ∧ fsGetFileType p = "other") := by
  refine ⟨?_, ?_, ?_, ?_, ?_⟩ <;> intro hx <;>
    constructor <;> simp only [tcGetFileType, fsGetFileType, hx] <;> decide

/-- Claim C4 witness: concrete mixed-case paths hitting each clause. -/
theorem c4_classifier_dispatch_witness :
    (extLower "DCIM/Photo.JPG" = ".jpg" ∧
      tcGetFileType "DCIM/Photo.JPG" = "image" ∧ fsGetFileType "DCIM/Photo.JPG" = "image") ∧
    (extLower "a/b.XyZ" = ".xyz" ∧
      tcGetFileType "a/b.XyZ" = "other" ∧ fsGetFileType "a/b.XyZ" = "other") :=
  ⟨⟨by decide, (c4_classifier_dispatch "DCIM/Photo.JPG").1 (by decide)⟩,
   ⟨by decide, (c4_classifier_dispatch "a/b.XyZ").2.2.2.2 (by decide)⟩⟩

/-- Claim C2 — in every reachable state of the ThumbnailCache (methods
modelled as atomic steps, which is what the at-a-time claims quantify
over): a key with a cached pixmap is never simultaneously in the
loading set; the queue holds at most one generation job per key; and
every queued job's key is marked loading, so a second generation job
for a key cannot be enqueued while one is pending — the decode for a
key is never in flight twice concurrently. -/
theorem c2_key_in_at_most_one_of_cache_and_loading {π κ : Type} {s : CacheState π κ}
    (h : Reachable π κ s) :
    (∀ k px, s.cache k = some px → s.loading k = false) ∧
    (s.queue.Pairwise fun a b => a.key ≠ b.key) ∧
    (∀ j ∈ s.queue, s.loading j.key = true) :=
  cacheInv_reachable h

/-- Claim C2 witness: the invariant instantiated at a concrete reachable
state (one `get_async` performed from the initial state). -/
theorem c2_key_in_at_most_one_of_cache_and_loading_witness :
    Reachable Nat Nat (getAsync (initState Nat Nat) "a.jpg" 64 64 0).1 ∧
    ((∀ k px, (getAsync (initState Nat Nat) "a.jpg" 64 64 0).1.cache k = some px →
        (getAsync (initState Nat Nat) "a.jpg" 64 64 0).1.loading k = false) ∧
      ((getAsync (initState Nat Nat) "a.jpg" 64 64 0).1.queue.Pairwise
        fun a b => a.key ≠ b.key) ∧
      (∀ j ∈ (getAsync (initState Nat Nat) "a.jpg" 64 64 0).1.queue,
        (getAsync (initState Nat Nat) "a.jpg" 64 64 0).1.loading j.key = true)) :=
  ⟨Reachable.stepGetAsync "a.jpg" 64 64 0 Reachable.init,
   c2_key_in_at_most_one_of_cache_and_loading
     (Reachable.stepGetAsync "a.jpg" 64 64 0 Reachable.init)⟩

/-- Claim C1 — from a state in which the key for `(path, w x h)` is fresh
(not cached, not loading, no subscribers, empty queue), registering
`N = (cb :: cbs).length` subscribers via successive `get_async` calls
enqueues exactly one generation job for the key, records all `N`
callbacks, and emits no events; the worker step that processes that
job (file present, decode yielding `px`) emits exactly one decode event
followed by exactly one invocation per registered callback — each with
the same pixmap `px` — caches `px`, and retires the key from loading.
If the key is already cached, `get_async` invokes its callback
immediately within the same call and leaves the state unchanged. -/
theorem c1_one_decode_all_callbacks {π κ : Type} (s : CacheState π κ)
    (path : String) (w h : Nat) (cb : κ) (cbs : List κ) (px : π)
    (ex : String → Bool) (gen : String → Nat → Nat → Option π)
    (hc : s.cache (thumbKey path w h) = none)
    (hl : s.loading (thumbKey path w h) = false)
    (hcb : s.callbacks (thumbKey path w h) = none)
    (hq : s.queue = [])
    (hex : ex path = true)
    (hgen : gen path w h = some px) :
    (getAsyncRun path w h s (cb :: cbs)).1.queue =
      [⟨path, w, h, thumbKey path w h⟩] ∧
    (getAsyncRun path w h s (cb :: cbs)).1.callbacks (thumbKey path w h) =
      some (cb :: cbs) ∧
    (getAsyncRun path w h s (cb :: cbs)).1.loading (thumbKey path w h) = true ∧
    (getAsyncRun path w h s (cb :: cbs)).2 = [] ∧
    (workerStep ex gen (getAsyncRun path w h s (cb :: cbs)).1).2 =
      Ev.decode (thumbKey path w h) ::
        (cb :: cbs).map (fun c => Ev.invoke c path px) ∧
    (workerStep ex gen (getAsyncRun path w h s (cb :: cbs)).1).1.cache
      (thumbKey path w h) = some px ∧
    (workerStep ex gen (getAsyncRun path w h s (cb :: cbs)).1).1.loading
      (thumbKey path w h) = false ∧
    (∀ (s2 : CacheState π κ) (cb2 : κ) (px2 : π),
      s2.cache (thumbKey path w h) = some px2 →
      getAsync s2 path w h cb2 = (s2, [Ev.invoke cb2 path px2])) := by
  have hfresh := getAsyncRun_fresh cb cbs hc hl
    (show (s.callbacks (thumbKey path w h)).getD [] = [] by rw [hcb]; rfl)
  obtain ⟨hfc, hfl, hfq, hfcb, hfe⟩ := hfresh
  have hq1 : (getAsyncRun path w h s (cb :: cbs)).1.queue =
      ⟨path, w, h, thumbKey path w h⟩ :: [] := by
    rw [hfq, hq]
    rfl
  have hc1 : (getAsyncRun path w h s (cb :: cbs)).1.cache (thumbKey path w h) = none := by
    rw [hfc]
    exact hc
  have hcb1 : (getAsyncRun path w h s (cb :: cbs)).1.callbacks (thumbKey path w h) =
      some (cb :: cbs) := by
    rw [hfcb]
    rfl
  have hdone := workerStep_success ex gen hq1 hc1 hcb1 hex hgen
  refine ⟨by rw [hfq, hq]; rfl, hcb1, ?_, hfe, hdone.2.2.2.2, hdone.1, hdone.2.1, ?_⟩
  · rw [hfl]
    simp
  · intro s2 cb2 px2 hc2
    unfold getAsync
    simp [hc2]

/-- Claim C1 witness: the episode at a concrete instantiation — three
subscribers for `a.jpg` at 64x64, decode producing `7`. -/
theorem c1_one_decode_all_callbacks_witness :
    (initState Nat Nat).cache (thumbKey "a.jpg" 64 64) = none ∧
    ((getAsyncRun "a.jpg" 64 64 (initState Nat Nat) [0, 1, 2]).1.queue =
      [⟨"a.jpg", 64, 64, thumbKey "a.jpg" 64 64⟩] ∧
    (getAsyncRun "a.jpg" 64 64 (initState Nat Nat) [0, 1, 2]).1.callbacks
      (thumbKey "a.jpg" 64 64) = some [0, 1, 2] ∧
    (getAsyncRun "a.jpg" 64 64 (initState Nat Nat) [0, 1, 2]).1.loading
      (thumbKey "a.jpg" 64 64) = true ∧
    (getAsyncRun "a.jpg" 64 64 (initState Nat Nat) [0, 1, 2]).2 = [] ∧
    (workerStep (fun _ => true) (fun _ _ _ => some 7)
        (getAsyncRun "a.jpg" 64 64 (initState Nat Nat) [0, 1, 2]).1).2 =
      Ev.decode (thumbKey "a.jpg" 64 64) ::
        [0, 1, 2].map (fun c => Ev.invoke c "a.jpg" (7 : Nat)) ∧
    (workerStep (fun _ => true) (fun _ _ _ => some 7)
        (getAsyncRun "a.jpg" 64 64 (initState Nat Nat) [0, 1, 2]).1).1.cache
      (thumbKey "a.jpg" 64 64) = some 7 ∧
    (workerStep (fun _ => true) (fun _ _ _ => some 7)
        (getAsyncRun "a.jpg" 64 64 (initState Nat Nat) [0, 1, 2]).1).1.loading
      (thumbKey "a.jpg" 64 64) = false ∧
    (∀ (s2 : CacheState Nat Nat) (cb2 : Nat) (px2 : Nat),
      s2.cache (thumbKey "a.jpg" 64 64) = some px2 →
      getAsync s2 "a.jpg" 64 64 cb2 = (s2, [Ev.invoke cb2 "a.jpg" px2]))) :=
  ⟨rfl, c1_one_decode_all_callbacks (initState Nat Nat) "a.jpg" 64 64 0 [1, 2] 7
    (fun _ => true) (fun _ _ _ => some 7) rfl rfl rfl rfl rfl rfl⟩

/-- Claim C3 — when the worker's generation for the dequeued key fails —
the file does not exist, or the generator raised / returned `None` —
the key is removed from the loading set, nothing is inserted into the
cache, no subscriber callback is invoked (the subscriber list itself
survives untouched), and a subsequent `get_async` for the same key
starts over: it re-enqueues a generation job, so the decode may be
retried. -/
theorem c3_failure_no_cache_no_callback {π κ : Type} (s : CacheState π κ)
    (path : String) (w h : Nat) (cbs : List κ) (rest : List Job)
    (ex : String → Bool) (gen : String → Nat → Nat → Option π)
    (hq : s.queue = ⟨path, w, h, thumbKey path w h⟩ :: rest)
    (hc : s.cache (thumbKey path w h) = none)
    (hcb : s.callbacks (thumbKey path w h) = some cbs) :
    (ex path = false →
      (workerStep ex gen s).1.loading (thumbKey path w h) = false ∧
      (workerStep ex gen s).1.cache (thumbKey path w h) = none ∧
      (workerStep ex gen s).1.callbacks (thumbKey path w h) = some cbs ∧
      (workerStep ex gen s).2 = []) ∧
    (ex path = true → gen path w h = none →
      (workerStep ex gen s).1.loading (thumbKey path w h) = false ∧
      (workerStep ex gen s).1.cache (thumbKey path w h) = none ∧
      (workerStep ex gen s).1.callbacks (thumbKey path w h) = some cbs ∧
      (workerStep ex gen s).2 = [Ev.decode (thumbKey path w h)] ∧
      (∀ (c : κ) (p : String) (q : π), Ev.invoke c p q ∉ (workerStep ex gen s).2)) ∧
    ((ex path = false ∨ gen path w h = none) →
      ∀ cb2 : κ, (getAsync (workerStep ex gen s).1 path w h cb2).1.queue =
        rest ++ [⟨path, w, h, thumbKey path w h⟩]) := by
  refine ⟨?_, ?_, ?_⟩
  · intro hex
    have hh := workerStep_noFile ex gen hq hex
    exact ⟨hh.2.1, by rw [hh.1]; exact hc, by rw [hh.2.2.1]; exact hcb, hh.2.2.2.2⟩
  · intro hex hgen
    have hh := workerStep_genFail ex gen hq hc hex hgen
    refine ⟨hh.2.1, by rw [hh.1]; exact hc, by rw [hh.2.2.1]; exact hcb, hh.2.2.2.2, ?_⟩
    intro c p q
    rw [hh.2.2.2.2]
    simp
  · intro hfail cb2
    have hres : (workerStep ex gen s).1.cache (thumbKey path w h) = none ∧
        (workerStep ex gen s).1.loading (thumbKey path w h) = false ∧
        (workerStep ex gen s).1.queue = rest := by
      rcases hfail with hex | hgen
      · have hh := workerStep_noFile ex gen hq hex
        exact ⟨by rw [hh.1]; exact hc, hh.2.1, hh.2.2.2.1⟩
      · by_cases hex : ex path = false
        · have hh := workerStep_noFile ex gen hq hex
          exact ⟨by rw [hh.1]; exact hc, hh.2.1, hh.2.2.2.1⟩
        · have hext : ex path = true := by
            revert hex
            cases ex path <;> simp
          have hh := workerStep_genFail ex gen hq hc hext hgen
          exact ⟨by rw [hh.1]; exact hc, hh.2.1, hh.2.2.2.1⟩
    unfold getAsync
    simp [hres.1, hres.2.1, hres.2.2]

/-- Claim C3 witness: the failure episode at a concrete instantiation
(missing file on one side, `None`-returning generator on the other). -/
theorem c3_failure_no_cache_no_callback_witness :
    (let s : CacheState Nat Nat :=
      { cache := fun _ => none
        loading := fun k => if k = thumbKey "a.jpg" 64 64 then true else false
        callbacks := fun k => if k = thumbKey "a.jpg" 64 64 then some [5] else none
        queue := [⟨"a.jpg", 64, 64, thumbKey "a.jpg" 64 64⟩] }
     (workerStep (fun _ => true) (fun _ _ _ => none) s).1.loading
        (thumbKey "a.jpg" 64 64) = false ∧
      (workerStep (fun _ => true) (fun _ _ _ => none) s).1.cache
        (thumbKey "a.jpg" 64 64) = none ∧
      (workerStep (fun _ => true) (fun _ _ _ => none) s).1.callbacks
        (thumbKey "a.jpg" 64 64) = some [5] ∧
      (workerStep (fun _ => true) (fun _ _ _ => none) s).2 =
        [Ev.decode (thumbKey "a.jpg" 64 64)] ∧
      (∀ (c : Nat) (p : String) (q : Nat),
        Ev.invoke c p q ∉ (workerStep (fun _ => true) (fun _ _ _ => none) s).2)) :=
  (c3_failure_no_cache_no_callback
      { cache := fun _ => none
        loading := fun k => if k = thumbKey "a.jpg" 64 64 then true else false
        callbacks := fun k => if k = thumbKey "a.jpg" 64 64 then some [5] else none
        queue := [⟨"a.jpg", 64, 64, thumbKey "a.jpg" 64 64⟩] }
      "a.jpg" 64 64 [5] [] (fun _ => true) (fun _ _ _ => none)
      rfl rfl (by simp)).2.1 rfl rfl

/-- Claim C10 — subscriber lists survive failed generation attempts:
(i) `get_async` only ever extends an existing subscriber list;
(ii) a worker step deletes a subscriber list only for its dequeued
job's key, and only when the file existed and the key was either found
cached (the cache-hit re-check) or decoded successfully (besides these,
only `clear` — which rebuilds the initial state — removes entries);
(iii) end to end: a callback registered before a failed attempt is
still invoked, together with a later subscriber, when a subsequent
`get_async` for the same key triggers a successful generation. -/
theorem c10_callbacks_survive_failed_attempt {π κ : Type} (s : CacheState π κ)
    (path : String) (w h : Nat) (cb1 cb2 : κ) (px : π)
    (ex : String → Bool) (gen1 gen2 : String → Nat → Nat → Option π)
    (hc : s.cache (thumbKey path w h) = none)
    (hl : s.loading (thumbKey path w h) = false)
    (hcb : s.callbacks (thumbKey path w h) = none)
    (hq : s.queue = [])
    (hex : ex path = true)
    (hg1 : gen1 path w h = none)
    (hg2 : gen2 path w h = some px) :
    (∀ (t : CacheState π κ) (p2 : String) (w2 h2 : Nat) (c : κ) (k : String) (l : List κ),
      t.callbacks k = some l →
      ∃ tl, (getAsync t p2 w2 h2 c).1.callbacks k = some (l ++ tl)) ∧
    (∀ (t : CacheState π κ) (ex2 : String → Bool) (gen3 : String → Nat → Nat → Option π)
        (k : String) (l : List κ),
      t.callbacks k = some l →
      (workerStep ex2 gen3 t).1.callbacks k = none →
      ∃ j rest, t.queue = j :: rest ∧ j.key = k ∧ ex2 j.path = true ∧
        (t.cache k ≠ none ∨ gen3 j.path j.w j.h ≠ none)) ∧
    (workerStep ex gen1 (getAsyncRun path w h s [cb1]).1).1.callbacks
      (thumbKey path w h) = some [cb1] ∧
    (workerStep ex gen2
        (getAsyncRun path w h
          (workerStep ex gen1 (getAsyncRun path w h s [cb1]).1).1 [cb2]).1).2 =
      [Ev.decode (thumbKey path w h), Ev.invoke cb1 path px, Ev.invoke cb2 path px] ∧
    (workerStep ex gen2
        (getAsyncRun path w h
          (workerStep ex gen1 (getAsyncRun path w h s [cb1]).1).1 [cb2]).1).1.cache
      (thumbKey path w h) = some px := by
  obtain ⟨hf1c, hf1l, hf1q, hf1cb, hf1e⟩ :=
    getAsyncRun_fresh cb1 [] hc hl
      (show (s.callbacks (thumbKey path w h)).getD [] = [] by rw [hcb]; rfl)
  have hq1 : (getAsyncRun path w h s [cb1]).1.queue =
      ⟨path, w, h, thumbKey path w h⟩ :: [] := by
    rw [hf1q, hq]
    rfl
  have hc1 : (getAsyncRun path w h s [cb1]).1.cache (thumbKey path w h) = none := by
    rw [hf1c]
    exact hc
  obtain ⟨hw1c, hw1l, hw1cb, hw1q, hw1e⟩ := workerStep_genFail ex gen1 hq1 hc1 hex hg1
  have hs2cb : (workerStep ex gen1 (getAsyncRun path w h s [cb1]).1).1.callbacks
      (thumbKey path w h) = some [cb1] := by
    rw [hw1cb, hf1cb]
    rfl
  have hs2c : (workerStep ex gen1 (getAsyncRun path w h s [cb1]).1).1.cache
      (thumbKey path w h) = none := by
    rw [hw1c]
    exact hc1
  obtain ⟨hf2c, hf2l, hf2q, hf2cb, hf2e⟩ :=
    getAsyncRun_fresh cb2 [] hs2c hw1l
      (show ((workerStep ex gen1 (getAsyncRun path w h s [cb1]).1).1.callbacks
          (thumbKey path w h)).getD [] = [cb1] by rw [hs2cb]; rfl)
  have hq3 : (getAsyncRun path w h
      (workerStep ex gen1 (getAsyncRun path w h s [cb1]).1).1 [cb2]).1.queue =
      ⟨path, w, h, thumbKey path w h⟩ :: [] := by
    rw [hf2q, hw1q]
    rfl
  have hc3 : (getAsyncRun path w h
      (workerStep ex gen1 (getAsyncRun path w h s [cb1]).1).1 [cb2]).1.cache
      (thumbKey path w h) = none := by
    rw [hf2c]
    exact hs2c
  have hcb3 : (getAsyncRun path w h
      (workerStep ex gen1 (getAsyncRun path w h s [cb1]).1).1 [cb2]).1.callbacks
      (thumbKey path w h) = some [cb1, cb2] := by
    rw [hf2cb]
    rfl
  obtain ⟨hw2c, hw2l, hw2cb, hw2q, hw2e⟩ := workerStep_success ex gen2 hq3 hc3 hcb3 hex hg2
  refine ⟨?_, ?_, hs2cb, ?_, hw2c⟩
  · intro t p2 w2 h2 c k l htl
    exact getAsync_callbacks_mono t p2 w2 h2 c k l htl
  · intro t ex2 gen3 k l htl hdel
    exact workerStep_callbacks_delete t ex2 gen3 k l htl hdel
  · rw [hw2e]
    rfl

/-- Claim C10 witness: the fail-then-retry episode at a concrete
instantiation (subscriber 1, failed decode, subscriber 2, successful
decode producing `7`). -/
theorem c10_callbacks_survive_failed_attempt_witness :
    (initState Nat Nat).callbacks (thumbKey "a.jpg" 64 64) = none ∧
    ((∀ (t : CacheState Nat Nat) (p2 : String) (w2 h2 : Nat) (c : Nat) (k : String)
        (l : List Nat),
      t.callbacks k = some l →
      ∃ tl, (getAsync t p2 w2 h2 c).1.callbacks k = some (l ++ tl)) ∧
    (∀ (t : CacheState Nat Nat) (ex2 : String → Bool)
        (gen3 : String → Nat → Nat → Option Nat) (k : String) (l : List Nat),
      t.callbacks k = some l →
      (workerStep ex2 gen3 t).1.callbacks k = none →
      ∃ j rest, t.queue = j :: rest ∧ j.key = k ∧ ex2 j.path = true ∧
        (t.cache k ≠ none ∨ gen3 j.path j.w j.h ≠ none)) ∧
    (workerStep (fun _ => true) (fun _ _ _ => none)
        (getAsyncRun "a.jpg" 64 64 (initState Nat Nat) [1]).1).1.callbacks
      (thumbKey "a.jpg" 64 64) = some [1] ∧
    (workerStep (fun _ => true) (fun _ _ _ => some 7)
        (getAsyncRun "a.jpg" 64 64
          (workerStep (fun _ => true) (fun _ _ _ => none)
            (getAsyncRun "a.jpg" 64 64 (initState Nat Nat) [1]).1).1 [2]).1).2 =
      [Ev.decode (thumbKey "a.jpg" 64 64), Ev.invoke 1 "a.jpg" (7 : Nat),
        Ev.invoke 2 "a.jpg" (7 : Nat)] ∧
    (workerStep (fun _ => true) (fun _ _ _ => some 7)
        (getAsyncRun "a.jpg" 64 64
          (workerStep (fun _ => true) (fun _ _ _ => none)
            (getAsyncRun "a.jpg" 64 64 (initState Nat Nat) [1]).1).1 [2]).1).1.cache
      (thumbKey "a.jpg" 64 64) = some 7) :=
  ⟨rfl, c10_callbacks_survive_failed_attempt (initState Nat Nat) "a.jpg" 64 64 1 2 7
    (fun _ => true) (fun _ _ _ => none) (fun _ _ _ => some 7)
    rfl rfl rfl rfl rfl rfl rfl⟩

/-- Claim C8 — the claim (and the docstring of
`FileIconItem._get_cache_key`) says a changed modification time
invalidates the stale entry, but the md5(path, mtime) key is computed
and then dropped: `get`/`get_async` key on `thumbKey` (path and size
only).  Concretely: after the worker caches pixmap `1` for
`f.jpg` at 64x64, a later `get_async` — at a point where the file has
changed and decoding would now yield `2` — still delivers the stale
pixmap `1` immediately (the decoder is not even consulted: `getAsync`
takes no generator).  `fileIconCacheKey` is mtime-sensitive, but no
state of the cache depends on it. -/
theorem c8_stale_bitmap_after_mtime_change :
    (getAsync
        (workerStep (fun _ => true) (fun _ _ _ => some 1)
          (getAsyncRun "f.jpg" 64 64 (initState Nat Nat) [0]).1).1
        "f.jpg" 64 64 0).2 = [Ev.invoke 0 "f.jpg" (1 : Nat)] ∧
    (1 : Nat) ≠ 2 ∧
    (∀ digest : String → String, ∀ m : String,
      fileIconCacheKey digest "f.jpg" m = digest ("f.jpg" ++ "_" ++ m)) := by
  refine ⟨by decide, by decide, fun digest m => rfl⟩

/-- Claim C9 — evaluation of `_fast_frame_grab_method` on a 100-frame
video (frame `i` carries content tag `i`): the shipped configuration
requests frame 5, which takes the sequential branch and returns frame
4's pixmap — not frame 5's (the `>10` branch, by contrast, returns
exactly the requested frame, and clamping works); requesting frame 0
returns `None` outright (the unbound `frame` local); and memoization
works as claimed: a repeated identical call is served from the
per-(path, frame, size) cache even when the video can no longer be
opened. -/
theorem c9_fast_frame_grab_off_by_one :
    (fastFrameGrabMethod []
        ⟨true, 30, 100, fun i => if 0 ≤ i ∧ i < 100 then some ⟨64, 64, i.toNat⟩ else none⟩
        "v.mp4" 64 64 5).1 = some (frameToPixmap ⟨64, 64, 4⟩ 64 64) ∧
    frameToPixmap ⟨64, 64, 4⟩ 64 64 ≠ frameToPixmap ⟨64, 64, 5⟩ 64 64 ∧
    (fastFrameGrabMethod []
        ⟨true, 30, 100, fun i => if 0 ≤ i ∧ i < 100 then some ⟨64, 64, i.toNat⟩ else none⟩
        "v.mp4" 64 64 50).1 = some (frameToPixmap ⟨64, 64, 50⟩ 64 64) ∧
    (fastFrameGrabMethod []
        ⟨true, 30, 100, fun i => if 0 ≤ i ∧ i < 100 then some ⟨64, 64, i.toNat⟩ else none⟩
        "v.mp4" 64 64 0).1 = none ∧
    (fastFrameGrabMethod []
        ⟨true, 30, 100, fun i => if 0 ≤ i ∧ i < 100 then some ⟨64, 64, i.toNat⟩ else none⟩
        "v.mp4" 64 64 200).1 = some (frameToPixmap ⟨64, 64, 99⟩ 64 64) ∧
    (fastFrameGrabMethod
        (fastFrameGrabMethod []
          ⟨true, 30, 100, fun i => if 0 ≤ i ∧ i < 100 then some ⟨64, 64, i.toNat⟩ else none⟩
          "v.mp4" 64 64 5).2
        ⟨false, 0, 0, fun _ => none⟩
        "v.mp4" 64 64 5).1 = some (frameToPixmap ⟨64, 64, 4⟩ 64 64) := by
  refine ⟨by decide, by decide, by decide, by decide, by decide, by decide⟩

theorem qsizeScaledKeepAR_le (wd ht tw th : Nat) :
    (qsizeScaledKeepAR wd ht tw th).1 ≤ tw ∧ (qsizeScaledKeepAR wd ht tw th).2 ≤ th := by
  unfold qsizeScaledKeepAR
  by_cases h0 : wd = 0 ∨ ht = 0
  · simp [h0]
  · push_neg at h0
    simp only [h0.1, h0.2, or_self, if_false]
    by_cases hrw : th * wd / ht ≤ tw
    · simp [hrw]
    · simp only [hrw, if_false]
      refine ⟨le_rfl, ?_⟩
      have hht : 0 < ht := Nat.pos_of_ne_zero h0.2
      have hwd : 0 < wd := Nat.pos_of_ne_zero h0.1
      have h1 : tw + 1 ≤ th * wd / ht := Nat.succ_le_of_lt (Nat.lt_of_not_le hrw)
      have h2 : (tw + 1) * ht ≤ th * wd := (Nat.le_div_iff_mul_le hht).mp h1
      have h3 : tw * ht < (th + 1) * wd := by
        calc tw * ht < (tw + 1) * ht := by
              exact Nat.mul_lt_mul_of_lt_of_le (Nat.lt_succ_self tw) le_rfl hht
          _ ≤ th * wd := h2
          _ < (th + 1) * wd := by
              exact Nat.mul_lt_mul_of_lt_of_le (Nat.lt_succ_self th) le_rfl hwd
      have h4 : tw * ht / wd < th + 1 := (Nat.div_lt_iff_lt_mul hwd).mpr h3
      omega

/-- Claim C6 counterexample — a successful decode of a 200x100 image
requested at 64x64: `ThumbnailCache._generate_image_thumbnail` (and the
optimized video module's `_frame_to_pixmap`) return a 64x32 bitmap —
aspect-fit only, not the claimed fixed 64x64 letterbox canvas. -/
theorem c6_counterexample :
    (tcGenerateImageThumbnail (fun _ => some ⟨200, 100, 0⟩) "a.jpg" 64 64).dims =
      (64, 32) ∧
    (frameToPixmap ⟨200, 100, 0⟩ 64 64).dims = (64, 32) ∧
    ((64, 32) : Nat × Nat) ≠ (64, 64) := by
  refine ⟨by decide, by decide, by decide⟩

/-- Claim C6 (amended) — letterboxing to exactly the requested size holds
for the decode paths that go through
`ThumbnailWorker._scale_and_center_pixmap` and for every result of the
standard video module `generate_video_thumbnail` (fresh memo cache);
the remaining successful decode paths —
`ThumbnailCache._generate_image_thumbnail` / `_generate_raw_thumbnail`
and the optimized module's `_frame_to_pixmap` — only aspect-fit scale:
their result never exceeds the requested size but can be strictly
smaller (see the counterexample). -/
theorem c6_scaling_dimensions (wd ht tw th : Nat) (htw : 0 < tw) (hth : 0 < th) :
    scaleAndCenterDims wd ht tw th = (tw, th) ∧
    (∀ (v : VideoSrc) (path : String) (frameTime : Rat),
      ((generateVideoThumbnail true [] v path tw th frameTime).1).dims = (tw, th)) ∧
    (qpixScaledDims wd ht tw th).1 ≤ tw ∧ (qpixScaledDims wd ht tw th).2 ≤ th := by
  have hb := qsizeScaledKeepAR_le wd ht tw th
  have hple : (qpixScaledDims wd ht tw th).1 ≤ tw ∧ (qpixScaledDims wd ht tw th).2 ≤ th := by
    unfold qpixScaledDims
    constructor
    · simp only []
      omega
    · simp only []
      omega
  refine ⟨?_, ?_, hple⟩
  · unfold scaleAndCenterDims
    by_cases hlt : (qpixScaledDims wd ht tw th).1 < tw ∨ (qpixScaledDims wd ht tw th).2 < th
    · simp [hlt]
    · simp only [hlt, if_false]
      push_neg at hlt
      have e1 : (qpixScaledDims wd ht tw th).1 = tw := le_antisymm hple.1 hlt.1
      have e2 : (qpixScaledDims wd ht tw th).2 = th := le_antisymm hple.2 hlt.2
      exact Prod.ext e1 e2
  · intro v path frameTime
    unfold generateVideoThumbnail
    simp only [Bool.not_true, stdMemoLookup, List.find?_nil, Option.map_none]
    by_cases hop : v.opened
    · simp only [hop, Bool.not_true, Bool.false_eq_true, if_false]
      by_cases hbad : v.fps ≤ 0 ∨ v.frameCount ≤ 0
      · simp [hbad, Pix.dims]
      · simp only [hbad, if_false]
        rcases hframe : v.frames (max 0 (min (pyInt (frameTime * v.fps))
            (v.frameCount - 1))) with _ | f
        · simp [hframe, Pix.dims]
        · simp only [hframe]
          rcases hd : getVideoDurationStd v with _ | d
          · simp [hd, Pix.dims]
          · by_cases hdp : 0 < d
            · simp [hd, hdp, Pix.dims]
            · simp [hd, hdp, Pix.dims]
    · have hop2 : v.opened = false := by
        revert hop
        cases v.opened <;> simp
      simp [hop2, Pix.dims]

/-- Claim C6 witness: at a 200x100 source and 64x64 target,
`_scale_and_center_pixmap` yields exactly 64x64 while the bare
aspect-fit result stays within the target. -/
theorem c6_scaling_dimensions_witness :
    (0 : Nat) < 64 ∧
    (scaleAndCenterDims 200 100 64 64 = (64, 64) ∧
      (∀ (v : VideoSrc) (path : String) (frameTime : Rat),
        ((generateVideoThumbnail true [] v path 64 64 frameTime).1).dims = (64, 64)) ∧
      (qpixScaledDims 200 100 64 64).1 ≤ 64 ∧ (qpixScaledDims 200 100 64 64).2 ≤ 64) :=
  ⟨by decide, c6_scaling_dimensions 200 100 64 64 (by decide) (by decide)⟩

/-- Claim C5 counterexample — the claim asserts that *every* strategy
returns `None` when fps is invalid (≤ 0), but `_direct_seek_method`
performs no fps/frame-count validation: on a source whose reported fps
is 0 yet whose frames read fine, it returns a thumbnail. -/
theorem c5_counterexample :
    (VideoSrc.fps ⟨true, 0, 100, fun _ => some ⟨100, 100, 0⟩⟩ ≤ 0) ∧
    directSeekMethod (fun _ => 0) ⟨true, 0, 100, fun _ => some ⟨100, 100, 0⟩⟩ 64 64 1 =
      some (frameToPixmap ⟨100, 100, 0⟩ 64 64) ∧
    some (frameToPixmap ⟨100, 100, 0⟩ 64 64) ≠ (none : Option Pix) := by
  refine ⟨by decide, by decide, by decide⟩

/-- Claim C5 (amended) — every strategy returns `None` (and, being a total
function of the model, raises nothing) when the file cannot be opened or
when every frame read comes back empty; the fps/frame-count ≤ 0 guard
exists only in `standard`, `keyframe_only`, `stream_optimized` and
`skip_frames` (and, for the frame count, `fast_frame_grab`) —
`direct_seek`, `fast_first_frame` and `hardware_accel` skip it (see the
counterexample).  The film-strip "VIDEO" placeholder with extension
badge is substituted by `generate_video_thumbnail`
(`create_fallback_thumbnail`) when the `file_list` chain falls back to
it, not by `generate_optimized_thumbnail`, which propagates `None`. -/
theorem c5_strategy_failure_behaviour (msecPos : Rat → Int) (v : VideoSrc)
    (backends : List VideoSrc) (tw th : Nat) (frameTime : Rat) (path : String)
    (frameNumber : Int) (ocache : List (String × Pix)) (scache : StdCache) :
    (v.opened = false →
      standardMethod v tw th frameTime = none ∧
      directSeekMethod msecPos v tw th frameTime = none ∧
      keyframeOnlyMethod msecPos v tw th frameTime = none ∧
      streamOptimizedMethod msecPos v tw th frameTime = none ∧
      skipFramesMethod v tw th frameTime = none ∧
      fastFirstFrameMethod v tw th = none ∧
      (memoLookup ocache (ffgKey path frameNumber tw th) = none →
        (fastFrameGrabMethod ocache v path tw th frameNumber).1 = none) ∧
      ((∀ b ∈ backends, b.opened = false) →
        hardwareAccelMethod backends msecPos v tw th frameTime = none)) ∧
    (v.fps ≤ 0 ∨ v.frameCount ≤ 0 →
      standardMethod v tw th frameTime = none ∧
      keyframeOnlyMethod msecPos v tw th frameTime = none ∧
      streamOptimizedMethod msecPos v tw th frameTime = none ∧
      skipFramesMethod v tw th frameTime = none) ∧
    (v.frameCount ≤ 0 →
      memoLookup ocache (ffgKey path frameNumber tw th) = none →
      (fastFrameGrabMethod ocache v path tw th frameNumber).1 = none) ∧
    ((∀ i, v.frames i = none) →
      standardMethod v tw th frameTime = none ∧
      directSeekMethod msecPos v tw th frameTime = none ∧
      keyframeOnlyMethod msecPos v tw th frameTime = none ∧
      streamOptimizedMethod msecPos v tw th frameTime = none ∧
      skipFramesMethod v tw th frameTime = none ∧
      fastFirstFrameMethod v tw th = none ∧
      (memoLookup ocache (ffgKey path frameNumber tw th) = none →
        (fastFrameGrabMethod ocache v path tw th frameNumber).1 = none) ∧
      ((∀ b ∈ backends, ∀ i, b.frames i = none) →
        hardwareAccelMethod backends msecPos v tw th frameTime = none)) ∧
    (v.opened = false →
      memoLookup ocache (ffgKey path 5 tw th) = none →
      stdMemoLookup scache (path, tw, th, 5 / 30) = none →
      tcGenerateVideoThumbnail true true backends msecPos ocache scache v path tw th =
        Pix.fallback path tw th) := by
  have hffg_closed : v.opened = false →
      memoLookup ocache (ffgKey path frameNumber tw th) = none →
      (fastFrameGrabMethod ocache v path tw th frameNumber).1 = none := by
    intro hop hmemo
    unfold fastFrameGrabMethod
    simp [hmemo, hop]
  have hffg_closed5 : v.opened = false →
      memoLookup ocache (ffgKey path 5 tw th) = none →
      (fastFrameGrabMethod ocache v path tw th 5).1 = none := by
    intro hop hmemo
    unfold fastFrameGrabMethod
    simp [hmemo, hop]
  have hhw_none : (∀ b ∈ backends, b.opened = false ∨ ∀ i, b.frames i = none) →
      hwTryBackends msecPos tw th frameTime backends = none := by
    intro hb
    induction backends with
    | nil => rfl
    | cons b rest ih =>
      have hbb := hb b (List.mem_cons_self b rest)
      have hrest := ih fun x hx => hb x (List.mem_cons_of_mem b hx)
      unfold hwTryBackends
      rcases hbb with hbo | hbf
      · simp [hbo, hrest]
      · by_cases hbo : b.opened
        · simp [hbo, hbf, hrest]
        · simp [hbo, hrest]
  refine ⟨?_, ?_, ?_, ?_, ?_⟩
  · intro hop
    refine ⟨by simp [standardMethod, hop], by simp [directSeekMethod, hop],
      by simp [keyframeOnlyMethod, hop], by simp [streamOptimizedMethod, hop],
      by simp [skipFramesMethod, hop], by simp [fastFirstFrameMethod, hop],
      hffg_closed hop, ?_⟩
    intro hb
    unfold hardwareAccelMethod
    rw [hhw_none fun b hbm => Or.inl (hb b hbm)]
    simp [standardMethod, hop]
  · intro hbad
    exact ⟨by simp [standardMethod, hbad], by simp [keyframeOnlyMethod, hbad],
      by simp [streamOptimizedMethod, hbad], by simp [skipFramesMethod, hbad]⟩
  · intro hcount hmemo
    unfold fastFrameGrabMethod
    simp [hmemo, hcount]
  · intro hread
    have hffg_read : memoLookup ocache (ffgKey path frameNumber tw th) = none →
        (fastFrameGrabMethod ocache v path tw th frameNumber).1 = none := by
      intro hmemo
      unfold fastFrameGrabMethod
      simp only [hmemo]
      by_cases hop : v.opened
      · simp only [hop, Bool.not_true, Bool.false_eq_true, if_false]
        by_cases hcount : v.frameCount ≤ 0
        · simp [hcount]
        · simp only [hcount, if_false]
          set n : Int := min (max 0 frameNumber) (v.frameCount - 1) with hn
          by_cases hle : n ≤ 10
          · by_cases h0 : n = 0
            · simp [hle, h0]
            · have hpos : 0 < n := by
                have : 0 ≤ n := by
                  rw [hn]
                  omega
                omega
              have hone : 1 ≤ n.toNat := by omega
              have hall : ((List.range n.toNat).all
                  fun i => ((v.frames (i : Int)).isSome : Bool)) = false := by
                apply List.all_eq_false.mpr
                refine ⟨0, by simpa using hpos, ?_⟩
                simp [hread 0]
              simp [hle, h0, seqLastFrame, hall]
          · simp [hle, hread n]
      · simp [hop]
    refine ⟨by simp [standardMethod, hread], by simp [directSeekMethod, hread],
      by simp [keyframeOnlyMethod, hread], by simp [streamOptimizedMethod, hread],
      by simp [skipFramesMethod, hread], by simp [fastFirstFrameMethod, hread],
      hffg_read, ?_⟩
    intro hb
    unfold hardwareAccelMethod
    rw [hhw_none fun b hbm => Or.inr (hb b hbm)]
    simp [standardMethod, hread]
  · intro hop hmemo hstd
    unfold tcGenerateVideoThumbnail
    have hopt : (generateOptimizedThumbnail true backends msecPos ocache v path tw th 1
        "fast_frame_grab" 5).1 = none := by
      unfold generateOptimizedThumbnail
      simp only [Bool.not_true, Bool.false_eq_true, if_false]
      have := hffg_closed5 hop hmemo
      simp [this]
    simp only [if_true, hopt]
    unfold generateVideoThumbnail
    simp [hstd, hop]

/-- Claim C5 witness: a video that cannot be opened — every strategy
returns `None` and the `file_list` chain renders the film-strip "VIDEO"
placeholder. -/
theorem c5_strategy_failure_behaviour_witness :
    (VideoSrc.opened ⟨false, 30, 100, fun _ => none⟩ = false) ∧
    (standardMethod ⟨false, 30, 100, fun _ => none⟩ 64 64 1 = none ∧
      directSeekMethod (fun _ => 0) ⟨false, 30, 100, fun _ => none⟩ 64 64 1 = none ∧
      keyframeOnlyMethod (fun _ => 0) ⟨false, 30, 100, fun _ => none⟩ 64 64 1 = none ∧
      streamOptimizedMethod (fun _ => 0) ⟨false, 30, 100, fun _ => none⟩ 64 64 1 = none ∧
      skipFramesMethod ⟨false, 30, 100, fun _ => none⟩ 64 64 1 = none ∧
      fastFirstFrameMethod ⟨false, 30, 100, fun _ => none⟩ 64 64 = none ∧
      (memoLookup [] (ffgKey "clip.mp4" 5 64 64) = none →
        (fastFrameGrabMethod [] ⟨false, 30, 100, fun _ => none⟩ "clip.mp4" 64 64 5).1 =
          none) ∧
      ((∀ b ∈ ([] : List VideoSrc), b.opened = false) →
        hardwareAccelMethod [] (fun _ => 0) ⟨false, 30, 100, fun _ => none⟩ 64 64 1 =
          none)) ∧
    tcGenerateVideoThumbnail true true [] (fun _ => 0) [] []
      ⟨false, 30, 100, fun _ => none⟩ "clip.mp4" 64 64 =
      Pix.fallback "clip.mp4" 64 64 :=
  ⟨rfl,
   (c5_strategy_failure_behaviour (fun _ => 0) ⟨false, 30, 100, fun _ => none⟩ []
      64 64 1 "clip.mp4" 5 [] []).1 rfl,
   (c5_strategy_failure_behaviour (fun _ => 0) ⟨false, 30, 100, fun _ => none⟩ []
      64 64 1 "clip.mp4" 5 [] []).2.2.2.2 rfl (by decide) (by decide)⟩

end Imsdly
